import Mathlib

set_option linter.unusedVariables false

/-!
Shallow embedding of the rule-driven validation and scoring engine of
`src/lambda/src/handler_basic.py` (the "dynamic validation engine"):
`get_active_rule`, `merge_parameters`, `execute_validation_step`,
`extract_metrics`, `calculate_ksi_score`, `evaluate_criterion`,
`summarize_aws_result` and the step loop of `execute_ksi_validation`.

Python dicts are embedded as association lists with insertion-order
assignment (`setKey`), numbers as rationals, raw AWS responses as a record
with one field per key the source reads, and the boto3 session as a
function from (service, action, parameters) to a raw response or an error
string (`raise` is modelled by `Except.error`; the source catches every
exception of a step and of the whole run).
-/

namespace Riskdash

/-- Parameter / override values: the JSON-ish scalars used by the rules. -/
inductive Val where
  | num (q : ℚ)
  | str (s : String)
  | bool (b : Bool)
deriving DecidableEq

/-- A Python dict with string keys, as an insertion-ordered association list. -/
abbrev Dict (β : Type) := List (String × β)

/-- Dict lookup (`d.get(k)`); keys are unique in a Python dict, so first match. -/
def lookup? {β : Type} (m : Dict β) (k : String) : Option β :=
  match m with
  | [] => none
  | (k₁, v) :: rest => if k₁ = k then some v else lookup? rest k

/-- Dict assignment `d[k] = v`: overwrite in place if the key exists, else append. -/
def setKey {β : Type} (m : Dict β) (k : String) (v : β) : Dict β :=
  match m with
  | [] => [(k, v)]
  | (k₁, v₁) :: rest => if k₁ = k then (k, v) :: rest else (k₁, v₁) :: setKey rest k v

/-- Python `d.update(entries)`: assign every entry of `entries` into `m` in order. -/
def updateAll {β : Type} (m : Dict β) (entries : Dict β) : Dict β :=
  entries.foldl (fun acc e => setKey acc e.1 e.2) m

/-- Python substring test `needle in haystack`. -/
def containsSub (haystack needle : String) : Bool :=
  (List.range (haystack.toList.length + 1)).any
    (fun i => List.isPrefixOf needle.toList (haystack.toList.drop i))

/-- One CloudTrail trail of a `describe_trails` response; the source reads
`Name`, `IsMultiRegionTrail` and `IsLogging`. -/
structure Trail where
  name : String
  isMultiRegionTrail : Bool
  isLogging : Bool
deriving DecidableEq

/-- One log group of a `describe_log_groups` response; the source reads
`retentionInDays`, which may be absent. -/
structure LogGroup where
  retentionInDays : Option ℚ
deriving DecidableEq

/-- One RDS instance of a `describe_db_instances` response. -/
structure RdsInstance where
  storageEncrypted : Bool
deriving DecidableEq

/-- One Security Hub finding of a `get_findings` response. -/
structure SecHubFinding where
  recordState : String
deriving DecidableEq

/-- A raw AWS API response: one field per key `extract_metrics` /
`summarize_aws_result` read, each defaulting to the empty collection
(the source reads every key with `result.get(key, [])`). Collections of
which only the length is used are lists of `Unit`. -/
structure AwsResult where
  trailList : List Trail := []
  eventsList : List Unit := []
  logGroups : List LogGroup := []
  kmsKeys : List Unit := []
  kmsAliases : List Unit := []
  snsTopics : List Unit := []
  metricAlarms : List Unit := []
  buckets : List Unit := []
  dbInstances : List RdsInstance := []
  certificateList : List Unit := []
  hubFindings : List SecHubFinding := []
  insights : List Unit := []
deriving DecidableEq

/-- Embedding of `extract_metrics(service, action, result)`: the closed
registry of per-(service, action) metric extractors; any other pair falls
through every branch and yields the empty dict. -/
def extract_metrics (service action : String) (result : AwsResult) : Dict ℚ :=
  let metrics : Dict ℚ := []
  if service = "cloudtrail" then
    if action = "describe_trails" then
      let trails := result.trailList
      let metrics := setKey metrics "trail_count" trails.length
      let metrics := setKey metrics "multi_region_trails"
        ((trails.filter (·.isMultiRegionTrail)).length : ℚ)
      setKey metrics "logging_enabled_trails"
        ((trails.filter (·.isLogging)).length : ℚ)
    else if action = "lookup_events" then
      setKey metrics "recent_events" (result.eventsList.length : ℚ)
    else metrics
  else if service = "logs" ∧ action = "describe_log_groups" then
    let log_groups := result.logGroups
    let metrics := setKey metrics "log_group_count" (log_groups.length : ℚ)
    let metrics := setKey metrics "groups_with_retention"
      ((log_groups.filter (fun lg => lg.retentionInDays.getD 0 ≠ 0)).length : ℚ)
    setKey metrics "long_retention_groups"
      ((log_groups.filter (fun lg => lg.retentionInDays.getD 0 ≥ 365)).length : ℚ)
  else if service = "kms" then
    if action = "list_keys" then
      setKey metrics "kms_key_count" (result.kmsKeys.length : ℚ)
    else if action = "list_aliases" then
      setKey metrics "key_aliases" (result.kmsAliases.length : ℚ)
    else metrics
  else if service = "sns" ∧ action = "list_topics" then
    setKey metrics "sns_topic_count" (result.snsTopics.length : ℚ)
  else if service = "cloudwatch" ∧ action = "describe_alarms" then
    setKey metrics "cloudwatch_alarms" (result.metricAlarms.length : ℚ)
  else if service = "s3" ∧ action = "list_buckets" then
    setKey metrics "s3_bucket_count" (result.buckets.length : ℚ)
  else if service = "rds" ∧ action = "describe_db_instances" then
    let instances := result.dbInstances
    let metrics := setKey metrics "rds_instance_count" (instances.length : ℚ)
    setKey metrics "encrypted_rds_instances"
      ((instances.filter (·.storageEncrypted)).length : ℚ)
  else if service = "acm" ∧ action = "list_certificates" then
    setKey metrics "certificate_count" (result.certificateList.length : ℚ)
  else if service = "securityhub" then
    if action = "get_findings" then
      let findings := result.hubFindings
      let metrics := setKey metrics "security_hub_findings" (findings.length : ℚ)
      setKey metrics "active_findings"
        ((findings.filter (fun f => f.recordState = "ACTIVE")).length : ℚ)
    else if action = "get_insights" then
      setKey metrics "security_insights" (result.insights.length : ℚ)
    else metrics
  else metrics

/-- Embedding of `summarize_aws_result(service, action, result)`. -/
def summarize_aws_result (service action : String) (result : AwsResult) : String :=
  if service = "cloudtrail" ∧ action = "describe_trails" then
    toString result.trailList.length ++ " CloudTrail trails found"
  else if service = "logs" ∧ action = "describe_log_groups" then
    toString result.logGroups.length ++ " log groups found"
  else if service = "kms" ∧ action = "list_keys" then
    toString result.kmsKeys.length ++ " KMS keys found"
  else
    service ++ "." ++ action ++ " executed successfully"

/-- Embedding of `evaluate_criterion(actual, operator, expected)`: the six
recognized comparison operators; anything else returns `False`. -/
def evaluate_criterion (actual : ℚ) (operator : String) (expected : ℚ) : Bool :=
  if operator = ">=" then decide (actual ≥ expected)
  else if operator = ">" then decide (actual > expected)
  else if operator = "<=" then decide (actual ≤ expected)
  else if operator = "<" then decide (actual < expected)
  else if operator = "==" then decide (actual = expected)
  else if operator = "!=" then decide (actual ≠ expected)
  else false

/-- One entry of `scoring_rules['pass_criteria']`: keys `metric`,
`operator`, `value`, `weight` and an optional `description`. -/
structure Criterion where
  metric : String
  operator : String
  value : ℚ
  weight : ℚ
  description : Option String := none
deriving DecidableEq

/-- The `scoring_rules` dict of a rule: `pass_criteria` plus an optional
`minimum_score` (the source reads it with `.get('minimum_score', 0.7)`). -/
structure ScoringRules where
  pass_criteria : List Criterion
  minimum_score : Option ℚ := none
deriving DecidableEq

/-- The dict returned by a successful `execute_validation_step`:
`{'success': True, 'metrics': ..., 'raw_result_summary': ...}`. -/
structure StepSuccess where
  success : Bool
  metrics : Dict ℚ
  raw_result_summary : String
deriving DecidableEq

/-- A value of the `step_results` dict of a run: either the success dict of
a step, or the plain error string stored under `step_{id}_error` when a
step with `failure_action == 'warn'` fails. -/
inductive StepEntry where
  | ok (r : StepSuccess)
  | errStr (msg : String)
deriving DecidableEq

/-- The dict returned by `calculate_ksi_score`. -/
structure ScoreResult where
  status : String
  score : ℚ
  minimum_score : ℚ
  findings : List String
  scores : Dict ℚ
deriving DecidableEq

/-- Aggregation loop at the top of `calculate_ksi_score`: merge the
`metrics` of every step result that is a dict carrying a `metrics` key
(warn error strings are skipped), later entries overwriting earlier ones. -/
def aggregate_metrics (step_results : Dict StepEntry) : Dict ℚ :=
  step_results.foldl
    (fun acc e =>
      match e.2 with
      | .ok r => updateAll acc r.metrics
      | .errStr _ => acc)
    []

/-- The criteria loop of `calculate_ksi_score`: threads
(total_weight, achieved_weight, findings) through the declared criteria. -/
def criteriaFold (all_metrics : Dict ℚ) (crits : List Criterion)
    (acc : ℚ × ℚ × List String) : ℚ × ℚ × List String :=
  match crits with
  | [] => acc
  | c :: rest =>
    let total_weight := acc.1 + c.weight
    let actual_value := (lookup? all_metrics c.metric).getD 0
    let passed := evaluate_criterion actual_value c.operator c.value
    let description := c.description.getD c.metric
    let next :=
      if passed then
        (total_weight, acc.2.1 + c.weight,
          acc.2.2 ++ ["✅ " ++ description ++ ": " ++ toString actual_value ++ " "
            ++ c.operator ++ " " ++ toString c.value])
      else
        (total_weight, acc.2.1,
          acc.2.2 ++ ["❌ " ++ description ++ ": " ++ toString actual_value ++ " "
            ++ c.operator ++ " " ++ toString c.value ++ " (FAILED)"])
    criteriaFold all_metrics rest next

/-- Embedding of `calculate_ksi_score(step_results, scoring_rules, parameters)`.
The `parameters` argument is accepted and unused, exactly as in the source. -/
def calculate_ksi_score (step_results : Dict StepEntry) (scoring_rules : ScoringRules)
    (parameters : Dict Val) : ScoreResult :=
  let all_metrics := aggregate_metrics step_results
  let folded := criteriaFold all_metrics scoring_rules.pass_criteria (0, 0, [])
  let total_weight := folded.1
  let achieved_weight := folded.2.1
  let findings := folded.2.2
  let score := if total_weight > 0 then achieved_weight / total_weight else 0
  let minimum_score := scoring_rules.minimum_score.getD (mkRat 7 10)
  let status := if score ≥ minimum_score then "PASS" else "FAIL"
  { status := status, score := score, minimum_score := minimum_score,
    findings := findings, scores := all_metrics }

/-- One entry of a rule's `validation_steps`. -/
structure Step where
  step_id : Nat
  service : String
  action : String
  parameters : Dict Val := []
  required : Bool := true
  failure_action : String
  description : String := ""
deriving DecidableEq

/-- One entry of a rule's `configurable_parameters`:
`{default: ..., description: ...}`. -/
structure ParamConfig where
  default : Val
  description : String := ""
deriving DecidableEq

/-- A validation-rule record of the rules table. -/
structure Rule where
  rule_id : String
  ksi_id : String
  version : String
  status : String
  category : String := ""
  title : String := ""
  validation_steps : List Step
  scoring_rules : ScoringRules
  configurable_parameters : Dict ParamConfig := []
deriving DecidableEq

/-- A tenant-override record of the overrides table (the source reads
`item.get('custom_parameters', {})`). -/
structure OverrideRecord where
  custom_parameters : Dict Val := []
deriving DecidableEq

/-- Embedding of `get_active_rule(ksi_id)` over the stored rule records:
keep the records for this `ksi_id` whose status is `active`, return `None`
if there are none, else sort by the `version` attribute descending (a
stable sort on the stored version strings, as Python's `list.sort` with
`reverse=True`) and return the first. -/
def get_active_rule (stored : List Rule) (ksi_id : String) : Option Rule :=
  let rules := stored.filter (fun r => r.ksi_id == ksi_id && r.status == "active")
  if rules.isEmpty then none
  else (rules.mergeSort (fun a b => decide (b.version ≤ a.version))).head?

/-- Embedding of `merge_parameters(default_params, tenant_overrides)`: start
from every declared parameter's `default`, then assign each override whose
name is declared in `default_params`; undeclared override names are skipped. -/
def merge_parameters (default_params : Dict ParamConfig) (tenant_overrides : Dict Val) :
    Dict Val :=
  let merged := default_params.foldl (fun acc p => setKey acc p.1 p.2.default) []
  tenant_overrides.foldl
    (fun acc p => if (lookup? default_params p.1).isSome then setKey acc p.1 p.2 else acc)
    merged

/-- The boto3 session of one run, as the engine uses it: a generic dispatch
from (service, action, parameters) to a raw response or a raised error
(`getattr` plus the dynamic call; an unknown action surfaces as an
`AttributeError`-style error string determined by this map, not as a
distinct error kind). -/
structure AwsSession where
  call : String → String → Dict Val → Except String AwsResult

/-- The sentinel substring that triggers dynamic trail-name resolution. -/
def auto_detect_sentinel : String := "auto_detect_first_trail"

/-- Embedding of `execute_validation_step(step, session, parameters)`.
The `parameters` argument is accepted and unused, exactly as in the source.
If the step's `Name` parameter contains the auto-detect sentinel, an
auxiliary `cloudtrail.describe_trails` call is made first and `Name` is
replaced by the first trail's name; an empty trail list is a raised
precondition failure. Then the step's (service, action) is invoked and a
success dict is built from the extracted metrics and summary. -/
def execute_validation_step (step : Step) (session : AwsSession) (parameters : Dict Val) :
    Except String StepSuccess :=
  let service_name := step.service
  let action_name := step.action
  let step_params := step.parameters
  let nameVal : String :=
    match lookup? step_params "Name" with
    | some (Val.str s) => s
    | _ => ""
  let resolved : Except String (Dict Val) :=
    if containsSub nameVal auto_detect_sentinel then
      match session.call "cloudtrail" "describe_trails" [] with
      | .error e => .error e
      | .ok res =>
        match res.trailList with
        | [] => .error "No trails found for trail status check"
        | t :: _ => .ok (setKey step_params "Name" (Val.str t.name))
    else .ok step_params
  match resolved with
  | .error e => .error e
  | .ok ps =>
    match session.call service_name action_name ps with
    | .error e => .error e
    | .ok result =>
      .ok { success := true,
            metrics := extract_metrics service_name action_name result,
            raw_result_summary := summarize_aws_result service_name action_name result }

/-- The `step_results` key of a step: `step_{step_id}`. -/
def stepKey (step : Step) : String := "step_" ++ toString step.step_id

/-- The `step_results` key of a warn failure: `step_{step_id}_error`. -/
def stepErrKey (step : Step) : String := "step_" ++ toString step.step_id ++ "_error"

/-- The step loop of `execute_ksi_validation`: run the declared steps in
order, storing each success under `step_{id}`; on a failure, policy
`fail_ksi` aborts immediately with the error (the failing step is NOT
stored in `step_results`), policy `warn` stores the error string under
`step_{id}_error` and continues, any other policy continues silently.
Returns the accumulated `step_results` and the abort error, if any. -/
def run_steps (session : AwsSession) (parameters : Dict Val) :
    List Step → Dict StepEntry → Dict StepEntry × Option String
  | [], acc => (acc, none)
  | step :: rest, acc =>
    match execute_validation_step step session parameters with
    | .ok result => run_steps session parameters rest (setKey acc (stepKey step) (.ok result))
    | .error e =>
      if step.failure_action = "fail_ksi" then
        (acc, some ("Critical step " ++ toString step.step_id ++ " failed: " ++ e))
      else if step.failure_action = "warn" then
        run_steps session parameters rest (setKey acc (stepErrKey step) (.errStr e))
      else
        run_steps session parameters rest acc

/-- The dict returned by `execute_ksi_validation`: on a `fail_ksi` abort a
FAIL dict with an error and no score, on completion a full result with the
scoring output, and on any other caught exception (missing rule, failed
role assumption) an ERROR dict whose `rule_version` is `'unknown'`. -/
inductive ExecResult where
  | failure (ksi_id : String) (error : String) (rule_version : String)
      (step_results : Dict StepEntry)
  | success (ksi_id : String) (status : String) (score : ℚ) (findings : List String)
      (scores : Dict ℚ) (step_results : Dict StepEntry) (rule_version : String)
      (parameters_used : Dict Val)
  | errorResult (ksi_id : String) (error : String)
deriving DecidableEq

/-- The `status` field of the returned dict. -/
def ExecResult.statusOf : ExecResult → String
  | .failure _ _ _ _ => "FAIL"
  | .success _ s _ _ _ _ _ _ => s
  | .errorResult _ _ => "ERROR"

/-- The `score` field of the returned dict, absent on abort and on error. -/
def ExecResult.scoreOf : ExecResult → Option ℚ
  | .success _ _ sc _ _ _ _ _ => some sc
  | _ => none

/-- The `step_results` field of the returned dict (empty on error). -/
def ExecResult.stepResultsOf : ExecResult → Dict StepEntry
  | .failure _ _ _ sr => sr
  | .success _ _ _ _ _ sr _ _ => sr
  | .errorResult _ _ => []

/-- The `findings` field of the returned dict (empty when absent). -/
def ExecResult.findingsOf : ExecResult → List String
  | .success _ _ _ f _ _ _ _ => f
  | _ => []

/-- The `rule_version` field of the returned dict. -/
def ExecResult.ruleVersionOf : ExecResult → String
  | .failure _ _ v _ => v
  | .success _ _ _ _ _ _ v _ => v
  | .errorResult _ _ => "unknown"

/-- Embedding of `execute_ksi_validation(ksi_id, tenant)`: resolve the
active rule (a missing rule raises, and the outer handler catches it into
an ERROR result), merge the tenant's overrides into the declared defaults,
take the session for the tenant's account (a failed role assumption is
likewise caught into an ERROR result), run the step loop, and either abort
as FAIL or score the accumulated step results. -/
def execute_ksi_validation (stored_rules : List Rule) (ksi_id : String)
    (tenant_override : Option OverrideRecord) (session : Except String AwsSession) :
    ExecResult :=
  match get_active_rule stored_rules ksi_id with
  | none => .errorResult ksi_id ("No active validation rule found for " ++ ksi_id)
  | some rule =>
    let parameters := merge_parameters rule.configurable_parameters
      ((tenant_override.map (·.custom_parameters)).getD [])
    match session with
    | .error e => .errorResult ksi_id e
    | .ok sess =>
      match run_steps sess parameters rule.validation_steps [] with
      | (step_results, some err) => .failure ksi_id err rule.version step_results
      | (step_results, none) =>
        let score_result := calculate_ksi_score step_results rule.scoring_rules parameters
        .success ksi_id score_result.status score_result.score score_result.findings
          score_result.scores step_results rule.version parameters

/-! Spec-side scoring formulas, written from the specification's words:
`total_weight = Σ weight` over all criteria, `achieved_weight = Σ weight`
over the criteria whose comparison passes, the actual value defaulting to
0 when the metric is absent. They are compared with the code's fold. -/

/-- Spec-side predicate: the criterion passes against the accumulated
metric map (actual value defaulting to 0 when the metric is absent). -/
def spec_passed (m : Dict ℚ) (c : Criterion) : Bool :=
  evaluate_criterion ((lookup? m c.metric).getD 0) c.operator c.value

/-- Spec-side formula: sum of all criterion weights. -/
def spec_total_weight (crits : List Criterion) : ℚ :=
  (crits.map (·.weight)).sum

/-- Spec-side formula: sum of the weights of the passing criteria. -/
def spec_achieved_weight (m : Dict ℚ) (crits : List Criterion) : ℚ :=
  ((crits.filter (spec_passed m)).map (·.weight)).sum

/-- The descending comparison used by `get_active_rule`'s sort. -/
def versionGe (a b : Rule) : Bool := decide (b.version ≤ a.version)

/-- The closed set of (service, action) pairs for which `extract_metrics`
has a branch. -/
def registered_pairs : List (String × String) :=
  [("cloudtrail", "describe_trails"), ("cloudtrail", "lookup_events"),
   ("logs", "describe_log_groups"), ("kms", "list_keys"), ("kms", "list_aliases"),
   ("sns", "list_topics"), ("cloudwatch", "describe_alarms"), ("s3", "list_buckets"),
   ("rds", "describe_db_instances"), ("acm", "list_certificates"),
   ("securityhub", "get_findings"), ("securityhub", "get_insights")]

/-! Concrete fixtures used by the scenario conjuncts, counterexamples and
witnesses below. -/

/-- Scenario B step results: one successful step whose metrics give
`m = 3`. -/
def scenarioB_steps : Dict StepEntry :=
  [("step_1", .ok { success := true, metrics := [("m", 3)], raw_result_summary := "1 ok" })]

/-- Scenario B scoring rules: weights 0.6 (satisfied: 3 >= 1) and 0.4
(unsatisfied: 3 >= 5), minimum_score 0.5. -/
def scenarioB_rules : ScoringRules :=
  { pass_criteria :=
      [ { metric := "m", operator := ">=", value := 1, weight := mkRat 6 10 },
        { metric := "m", operator := ">=", value := 5, weight := mkRat 4 10 } ],
    minimum_score := some (mkRat 5 10) }

/-- Scoring rules with a single criterion whose operator `"~"` is not
recognized. -/
def unknownOp_rules : ScoringRules :=
  { pass_criteria := [{ metric := "m", operator := "~", value := 1, weight := 1 }],
    minimum_score := some (mkRat 5 10) }

/-- Scoring rules that omit `minimum_score`, with one satisfied criterion. -/
def noMin_rules : ScoringRules :=
  { pass_criteria := [{ metric := "m", operator := ">=", value := 0, weight := 1 }],
    minimum_score := none }

/-- Declared parameters for the C5 witness: `X` defaults to 1, `Y` to 2. -/
def c5_defaults : Dict ParamConfig :=
  [("X", { default := Val.num 1 }), ("Y", { default := Val.num 2 })]

/-- Overrides for the C5 witness: `X` overridden to 5, undeclared `Z` set. -/
def c5_overrides : Dict Val := [("X", Val.num 5), ("Z", Val.num 9)]

/-- A rule with a single `fail_ksi` step, for the C2 counterexample. -/
def c2_rule : Rule :=
  { rule_id := "KSI-X-v1.0", ksi_id := "KSI-X", version := "1.0", status := "active",
    validation_steps :=
      [{ step_id := 1, service := "s3", action := "list_buckets",
         failure_action := "fail_ksi" }],
    scoring_rules := { pass_criteria := [], minimum_score := some (mkRat 5 10) } }

/-- A session whose every remote call fails. -/
def failing_session : AwsSession := ⟨fun _ _ _ => .error "AccessDenied"⟩

/-- First step of the C2 witness rule: a succeeding S3 call. -/
def c2w_s1 : Step :=
  { step_id := 1, service := "s3", action := "list_buckets", failure_action := "warn" }

/-- Second step of the C2 witness rule: a failing `fail_ksi` KMS call. -/
def c2w_s2 : Step :=
  { step_id := 2, service := "kms", action := "list_keys", failure_action := "fail_ksi" }

/-- The C2 witness rule: one succeeding step, then a failing `fail_ksi`
step. -/
def c2w_rule : Rule :=
  { rule_id := "KSI-W-v1.0", ksi_id := "KSI-W", version := "1.0", status := "active",
    validation_steps := [c2w_s1, c2w_s2],
    scoring_rules := { pass_criteria := [], minimum_score := some (mkRat 5 10) } }

/-- A session where S3 calls succeed and everything else fails. -/
def c2w_session : AwsSession :=
  ⟨fun service _ _ => if service = "s3" then .ok {} else .error "Denied"⟩

/-- The success record produced by the succeeding first step of the C2
witness rule. -/
def c2w_ok : StepSuccess :=
  { success := true, metrics := [("s3_bucket_count", 0)],
    raw_result_summary := "s3.list_buckets executed successfully" }

/-- A rule with a single step referencing an unknown (service, operation)
pair and failure policy `warn`, for the C3 counterexample. -/
def c3_rule : Rule :=
  { rule_id := "KSI-R-v1.0", ksi_id := "KSI-R", version := "1.0", status := "active",
    validation_steps :=
      [{ step_id := 1, service := "foo", action := "bar", failure_action := "warn" }],
    scoring_rules := { pass_criteria := [], minimum_score := some 0 } }

/-- A session modelling reflective `getattr` dispatch: every (service,
action) resolves, and an unknown action surfaces only as a generic
`AttributeError`-style error string. -/
def reflective_session : AwsSession :=
  ⟨fun service action _ =>
    .error ("AttributeError: '" ++ service ++ "' object has no attribute '"
      ++ action ++ "'")⟩

/-- A session whose every call returns the empty response. -/
def ok_session : AwsSession := ⟨fun _ _ _ => .ok {}⟩

theorem criteriaFold_total (m : Dict ℚ) (crits : List Criterion) :
    ∀ (t a : ℚ) (f : List String),
      (criteriaFold m crits (t, a, f)).1 = t + spec_total_weight crits := by
  induction crits with
  | nil => intro t a f; simp [criteriaFold, spec_total_weight]
  | cons c rest ih =>
    intro t a f
    simp only [criteriaFold]
    by_cases h : spec_passed m c
    · rw [if_pos (by simpa [spec_passed] using h)]
      rw [ih]
      simp [spec_total_weight]
      ring
    · rw [if_neg (by simpa [spec_passed] using h)]
      rw [ih]
      simp [spec_total_weight]
      ring

theorem criteriaFold_achieved (m : Dict ℚ) (crits : List Criterion) :
    ∀ (t a : ℚ) (f : List String),
      (criteriaFold m crits (t, a, f)).2.1 = a + spec_achieved_weight m crits := by
  induction crits with
  | nil => intro t a f; simp [criteriaFold, spec_achieved_weight]
  | cons c rest ih =>
    intro t a f
    simp only [criteriaFold]
    by_cases h : spec_passed m c
    · rw [if_pos (by simpa [spec_passed] using h)]
      rw [ih]
      simp [spec_achieved_weight, List.filter_cons, h]
      ring
    · rw [if_neg (by simpa [spec_passed] using h)]
      rw [ih]
      simp [spec_achieved_weight, List.filter_cons, h]

/-- The components of `calculate_ksi_score`, expressed through the
spec-side formulas. -/
theorem calculate_ksi_score_eq (step_results : Dict StepEntry) (sr : ScoringRules)
    (params : Dict Val) :
    calculate_ksi_score step_results sr params =
      { status :=
          if (if spec_total_weight sr.pass_criteria > 0 then
                spec_achieved_weight (aggregate_metrics step_results) sr.pass_criteria /
                  spec_total_weight sr.pass_criteria
              else 0) ≥ sr.minimum_score.getD (mkRat 7 10)
          then "PASS" else "FAIL",
        score :=
          if spec_total_weight sr.pass_criteria > 0 then
            spec_achieved_weight (aggregate_metrics step_results) sr.pass_criteria /
              spec_total_weight sr.pass_criteria
          else 0,
        minimum_score := sr.minimum_score.getD (mkRat 7 10),
        findings := (criteriaFold (aggregate_metrics step_results) sr.pass_criteria
          (0, 0, [])).2.2,
        scores := aggregate_metrics step_results } := by
  simp only [calculate_ksi_score]
  rw [criteriaFold_total, criteriaFold_achieved]
  simp

/-- C1: for every scoring spec with a declared minimum_score and every
accumulated step-result map, the returned score is
`achieved_weight / total_weight` when `total_weight > 0` and `0` when
`total_weight = 0` (weights summed over all criteria, achieved weights over
the criteria whose operator comparison passes with absent metrics read as
0), and the returned status is "PASS" iff `score ≥ minimum_score`,
otherwise "FAIL"; in particular Scenario B (weights 0.6 satisfied and 0.4
unsatisfied, minimum_score 0.5) yields score 0.6 and status PASS. -/
theorem claim_C1 (step_results : Dict StepEntry) (sr : ScoringRules)
    (params : Dict Val) (ms : ℚ) (hms : sr.minimum_score = some ms) :
    ((calculate_ksi_score step_results sr params).score =
      if spec_total_weight sr.pass_criteria > 0 then
        spec_achieved_weight (aggregate_metrics step_results) sr.pass_criteria /
          spec_total_weight sr.pass_criteria
      else 0)
    ∧ ((calculate_ksi_score step_results sr params).status = "PASS" ↔
        (calculate_ksi_score step_results sr params).score ≥ ms)
    ∧ ((calculate_ksi_score step_results sr params).status = "PASS" ∨
        (calculate_ksi_score step_results sr params).status = "FAIL")
    ∧ (calculate_ksi_score scenarioB_steps scenarioB_rules []).score = mkRat 6 10
    ∧ (calculate_ksi_score scenarioB_steps scenarioB_rules []).status = "PASS" := by
  rw [calculate_ksi_score_eq step_results sr params]
  refine ⟨rfl, ?_, ?_, ?_, ?_⟩
  · rw [hms]
    simp only [Option.getD_some]
    by_cases h :
      (if spec_total_weight sr.pass_criteria > 0 then
        spec_achieved_weight (aggregate_metrics step_results) sr.pass_criteria /
          spec_total_weight sr.pass_criteria
       else 0) ≥ ms
    · simp [h]
    · simp only [if_neg h]
      constructor
      · intro hcontra
        exact absurd hcontra (by decide)
      · intro hcontra
        exact absurd hcontra h
  · by_cases h :
      (if spec_total_weight sr.pass_criteria > 0 then
        spec_achieved_weight (aggregate_metrics step_results) sr.pass_criteria /
          spec_total_weight sr.pass_criteria
       else 0) ≥ sr.minimum_score.getD (mkRat 7 10)
    · exact Or.inl (by simp [h])
    · exact Or.inr (by simp [h])
  · with_unfolding_all rfl
  · with_unfolding_all rfl

/-- Witness for C1, at Scenario B with its declared minimum_score 0.5. -/
theorem claim_C1_witness :
    (calculate_ksi_score scenarioB_steps scenarioB_rules []).status = "PASS" ↔
      (calculate_ksi_score scenarioB_steps scenarioB_rules []).score ≥ mkRat 5 10 :=
  (claim_C1 scenarioB_steps scenarioB_rules [] (mkRat 5 10) rfl).2.1

theorem sum_map_filter_le (l : List Criterion) (p : Criterion → Bool)
    (hw : ∀ x ∈ l, 0 ≤ x.weight) :
    ((l.filter p).map (·.weight)).sum ≤ (l.map (·.weight)).sum := by
  induction l with
  | nil => simp
  | cons x rest ih =>
    have hx : 0 ≤ x.weight := hw x (by simp)
    have hrest : ∀ y ∈ rest, 0 ≤ y.weight := fun y hy => hw y (by simp [hy])
    by_cases h : p x
    · simp only [List.filter_cons, h, if_pos, List.map_cons, List.sum_cons]
      exact add_le_add_left (ih hrest) _
    · simp only [List.filter_cons, h, List.map_cons, List.sum_cons]
      calc ((rest.filter p).map (·.weight)).sum ≤ (rest.map (·.weight)).sum := ih hrest
        _ ≤ x.weight + (rest.map (·.weight)).sum := le_add_of_nonneg_left hx

theorem sum_filter_add_le (l : List Criterion) (p : Criterion → Bool) (c : Criterion)
    (hc : c ∈ l) (hpc : p c = false) (hw : ∀ x ∈ l, 0 ≤ x.weight) :
    ((l.filter p).map (·.weight)).sum + c.weight ≤ (l.map (·.weight)).sum := by
  induction l with
  | nil => cases hc
  | cons x rest ih =>
    have hx : 0 ≤ x.weight := hw x (by simp)
    have hrest : ∀ y ∈ rest, 0 ≤ y.weight := fun y hy => hw y (by simp [hy])
    rcases List.mem_cons.mp hc with hcx | hcr
    · subst hcx
      simp only [List.filter_cons, hpc, List.map_cons, List.sum_cons]
      rw [add_comm]
      exact add_le_add_left (sum_map_filter_le rest p hrest) _
    · by_cases h : p x
      · simp only [List.filter_cons, h, if_pos, List.map_cons, List.sum_cons]
        rw [add_assoc]
        exact add_le_add_left (ih hcr hrest) _
      · simp only [List.filter_cons, h, List.map_cons, List.sum_cons]
        calc ((rest.filter p).map (·.weight)).sum + c.weight
            ≤ (rest.map (·.weight)).sum := ih hcr hrest
          _ ≤ x.weight + (rest.map (·.weight)).sum := le_add_of_nonneg_left hx

/-- C7: a criterion whose operator is none of the six recognized operators
always evaluates to "not passed" (no error is thrown: `evaluate_criterion`
is total and returns `false` for every actual and threshold value), its
weight is still counted toward the code's `total_weight`, and consequently
the code's `achieved_weight` falls short of `total_weight` by at least that
weight, lowering the achievable score. -/
theorem claim_C7 (sr : ScoringRules) (c : Criterion) (m : Dict ℚ)
    (hc : c ∈ sr.pass_criteria)
    (hop : c.operator ∉ ([">=", ">", "<=", "<", "==", "!="] : List String))
    (hw : ∀ x ∈ sr.pass_criteria, 0 ≤ x.weight) :
    (∀ a e : ℚ, evaluate_criterion a c.operator e = false)
    ∧ (criteriaFold m sr.pass_criteria (0, 0, [])).1 = spec_total_weight sr.pass_criteria
    ∧ (criteriaFold m sr.pass_criteria (0, 0, [])).2.1 + c.weight ≤
        (criteriaFold m sr.pass_criteria (0, 0, [])).1 := by
  simp only [List.mem_cons, List.not_mem_nil, or_false] at hop
  push_neg at hop
  obtain ⟨h1, h2, h3, h4, h5, h6⟩ := hop
  have heval : ∀ a e : ℚ, evaluate_criterion a c.operator e = false := by
    intro a e
    simp [evaluate_criterion, h1, h2, h3, h4, h5, h6]
  refine ⟨heval, ?_, ?_⟩
  · rw [criteriaFold_total]; ring
  · rw [criteriaFold_total, criteriaFold_achieved]
    have hpc : spec_passed m c = false := by simp [spec_passed, heval]
    have := sum_filter_add_le sr.pass_criteria (spec_passed m) c hc hpc hw
    simpa [spec_achieved_weight, spec_total_weight] using this

/-- Witness for C7, at the single-criterion rule with operator `"~"`. -/
theorem claim_C7_witness :
    (∀ a e : ℚ, evaluate_criterion a "~" e = false)
    ∧ (criteriaFold [] unknownOp_rules.pass_criteria (0, 0, [])).1 =
        spec_total_weight unknownOp_rules.pass_criteria
    ∧ (criteriaFold [] unknownOp_rules.pass_criteria (0, 0, [])).2.1 + (1 : ℚ) ≤
        (criteriaFold [] unknownOp_rules.pass_criteria (0, 0, [])).1 :=
  claim_C7 unknownOp_rules
    { metric := "m", operator := "~", value := 1, weight := 1 } []
    (by simp [unknownOp_rules]) (by decide)
    (by intro x hx; simp [unknownOp_rules] at hx; subst hx; norm_num)

/-- The default pass threshold used when `minimum_score` is absent equals
the literal 0.7 of the source. -/
theorem mkRat_seven_tenths : (mkRat 7 10 : ℚ) = 0.7 := by
  rw [Rat.mkRat_eq_div]; norm_num

/-- C10: when a rule's scoring specification omits `minimum_score`, the
engine uses 0.7 as the pass threshold: the returned `minimum_score` is 0.7
and the status is "PASS" iff the score is at least 0.7. -/
theorem claim_C10 (step_results : Dict StepEntry) (sr : ScoringRules)
    (params : Dict Val) (hms : sr.minimum_score = none) :
    ((calculate_ksi_score step_results sr params).minimum_score = (0.7 : ℚ))
    ∧ ((calculate_ksi_score step_results sr params).status = "PASS" ↔
        (calculate_ksi_score step_results sr params).score ≥ (0.7 : ℚ)) := by
  rw [calculate_ksi_score_eq step_results sr params]
  rw [hms]
  simp only [Option.getD_none, mkRat_seven_tenths]
  refine ⟨by trivial, ?_⟩
  by_cases h :
    (if spec_total_weight sr.pass_criteria > 0 then
      spec_achieved_weight (aggregate_metrics step_results) sr.pass_criteria /
        spec_total_weight sr.pass_criteria
     else 0) ≥ (0.7 : ℚ)
  · simp [h]
  · simp only [if_neg h]
    constructor
    · intro hcontra
      exact absurd hcontra (by decide)
    · intro hcontra
      exact absurd hcontra h

/-- Witness for C10, at a scoring spec that omits `minimum_score`. -/
theorem claim_C10_witness :
    (calculate_ksi_score [] noMin_rules []).minimum_score = (0.7 : ℚ) :=
  (claim_C10 [] noMin_rules [] rfl).1

theorem lookup_setKey_self {β : Type} (m : Dict β) (k : String) (v : β) :
    lookup? (setKey m k v) k = some v := by
  induction m with
  | nil => simp [setKey, lookup?]
  | cons p rest ih =>
    obtain ⟨k₁, v₁⟩ := p
    by_cases h : k₁ = k
    · simp [setKey, h, lookup?]
    · simp [setKey, h, lookup?, ih]

theorem lookup_setKey_ne {β : Type} (m : Dict β) (k n : String) (v : β) (h : n ≠ k) :
    lookup? (setKey m k v) n = lookup? m n := by
  induction m with
  | nil => simp [setKey, lookup?, Ne.symm h]
  | cons p rest ih =>
    obtain ⟨k₁, v₁⟩ := p
    by_cases h₁ : k₁ = k
    · subst h₁
      simp [setKey, lookup?, Ne.symm h]
    · simp only [setKey, if_neg h₁]
      by_cases h₂ : k₁ = n
      · simp [lookup?, h₂]
      · simp [lookup?, h₂, ih]

theorem lookup_defaults_fold_notmem (dp : Dict ParamConfig) (acc : Dict Val) (n : String)
    (h : n ∉ dp.map Prod.fst) :
    lookup? (dp.foldl (fun acc p => setKey acc p.1 p.2.default) acc) n = lookup? acc n := by
  induction dp generalizing acc with
  | nil => simp
  | cons p rest ih =>
    obtain ⟨k, c⟩ := p
    simp only [List.map_cons, List.mem_cons] at h
    push_neg at h
    simp only [List.foldl_cons]
    rw [ih _ h.2, lookup_setKey_ne _ _ _ _ h.1]

theorem lookup_defaults_fold (dp : Dict ParamConfig) (acc : Dict Val) (n : String)
    (hnd : (dp.map Prod.fst).Nodup) :
    lookup? (dp.foldl (fun acc p => setKey acc p.1 p.2.default) acc) n =
      (match lookup? dp n with
       | some c => some c.default
       | none => lookup? acc n) := by
  induction dp generalizing acc with
  | nil => simp [lookup?]
  | cons p rest ih =>
    obtain ⟨k, c⟩ := p
    simp only [List.map_cons, List.nodup_cons] at hnd
    simp only [List.foldl_cons]
    by_cases h : k = n
    · subst h
      rw [lookup_defaults_fold_notmem _ _ _ hnd.1]
      simp [lookup?, lookup_setKey_self]
    · rw [ih _ hnd.2]
      simp only [lookup?, if_neg h]
      cases lookup? rest n with
      | some c₁ => rfl
      | none => simp [lookup_setKey_ne _ _ _ _ (Ne.symm h)]

theorem lookup_override_fold_notmem (dp : Dict ParamConfig) (ov : Dict Val)
    (acc : Dict Val) (n : String) (h : n ∉ ov.map Prod.fst) :
    lookup? (ov.foldl
      (fun acc p => if (lookup? dp p.1).isSome then setKey acc p.1 p.2 else acc) acc) n =
      lookup? acc n := by
  induction ov generalizing acc with
  | nil => simp
  | cons p rest ih =>
    obtain ⟨k, v⟩ := p
    simp only [List.map_cons, List.mem_cons] at h
    push_neg at h
    simp only [List.foldl_cons]
    rw [ih _ h.2]
    by_cases hd : (lookup? dp k).isSome
    · simp [hd, lookup_setKey_ne _ _ _ _ h.1]
    · simp [hd]

theorem lookup_override_fold (dp : Dict ParamConfig) (ov : Dict Val) (acc : Dict Val)
    (n : String) (hnd : (ov.map Prod.fst).Nodup) :
    lookup? (ov.foldl
      (fun acc p => if (lookup? dp p.1).isSome then setKey acc p.1 p.2 else acc) acc) n =
      (match lookup? ov n with
       | some v => if (lookup? dp n).isSome then some v else lookup? acc n
       | none => lookup? acc n) := by
  induction ov generalizing acc with
  | nil => simp [lookup?]
  | cons p rest ih =>
    obtain ⟨k, v⟩ := p
    simp only [List.map_cons, List.nodup_cons] at hnd
    simp only [List.foldl_cons]
    by_cases h : k = n
    · subst h
      rw [lookup_override_fold_notmem _ _ _ _ hnd.1]
      by_cases hd : (lookup? dp k).isSome
      · simp [lookup?, hd, lookup_setKey_self]
      · simp [lookup?, hd]
    · rw [ih _ hnd.2]
      simp only [lookup?, if_neg h]
      cases lookup? rest n with
      | some v₁ =>
        by_cases hdn : (lookup? dp n).isSome
        · simp [hdn]
        · by_cases hdk : (lookup? dp k).isSome
          · simp [hdn, hdk, lookup_setKey_ne _ _ _ _ (Ne.symm h)]
          · simp [hdn, hdk]
      | none =>
        by_cases hdk : (lookup? dp k).isSome
        · simp [hdk, lookup_setKey_ne _ _ _ _ (Ne.symm h)]
        · simp [hdk]

/-- C5: parameter resolution starts from every declared parameter's
default and replaces it with the override value exactly when the override
name is declared in `configurable_parameters`; names undeclared there
resolve to nothing at all (unknown override keys are silently dropped,
without error and without effect on the result). -/
theorem claim_C5 (dp : Dict ParamConfig) (ov : Dict Val) (n : String)
    (hdp : (dp.map Prod.fst).Nodup) (hov : (ov.map Prod.fst).Nodup) :
    lookup? (merge_parameters dp ov) n =
      (match lookup? dp n with
       | some c => some ((lookup? ov n).getD c.default)
       | none => none) := by
  unfold merge_parameters
  rw [lookup_override_fold dp ov _ n hov]
  cases hovn : lookup? ov n with
  | some v =>
    cases hdpn : lookup? dp n with
    | some c =>
      have : (lookup? dp n).isSome := by simp [hdpn]
      simp [hdpn ▸ this]
    | none =>
      have : ¬ (lookup? dp n).isSome := by simp [hdpn]
      simp only [if_neg this]
      rw [lookup_defaults_fold dp [] n hdp]
      simp [hdpn, lookup?]
  | none =>
    rw [lookup_defaults_fold dp [] n hdp]
    cases hdpn : lookup? dp n with
    | some c => simp
    | none => simp [lookup?]

/-- Witness for C5: override precedence at `X` (default 1, override 5). -/
theorem claim_C5_witness :
    lookup? (merge_parameters c5_defaults c5_overrides) "X" =
      (match lookup? c5_defaults "X" with
       | some c => some ((lookup? c5_overrides "X").getD c.default)
       | none => none) :=
  claim_C5 c5_defaults c5_overrides "X" (by decide) (by decide)

theorem versionGe_trans : ∀ a b c : Rule, versionGe a b → versionGe b c → versionGe a c := by
  intro a b c hab hbc
  simp only [versionGe, decide_eq_true_eq] at *
  exact le_trans hbc hab

theorem versionGe_total : ∀ a b : Rule, versionGe a b || versionGe b a := by
  intro a b
  simp only [versionGe, Bool.or_eq_true, decide_eq_true_eq]
  exact le_total b.version a.version

theorem get_active_rule_some (stored : List Rule) (ksi : String) (r : Rule)
    (h : get_active_rule stored ksi = some r) :
    r ∈ stored ∧ r.ksi_id = ksi ∧ r.status = "active" ∧
      ∀ r₁ ∈ stored, r₁.ksi_id = ksi → r₁.status = "active" → r₁.version ≤ r.version := by
  simp only [get_active_rule] at h
  by_cases hemp : (stored.filter (fun x => x.ksi_id == ksi && x.status == "active")).isEmpty
  · rw [if_pos hemp] at h
    cases h
  · rw [if_neg hemp] at h
    have hsorted :
        ((stored.filter (fun x => x.ksi_id == ksi && x.status == "active")).mergeSort
          (fun a b => decide (b.version ≤ a.version))).Pairwise
            (fun a b => decide (b.version ≤ a.version)) :=
      List.sorted_mergeSort
        (by intro a b c hab hbc; exact versionGe_trans a b c hab hbc)
        (by intro a b; exact versionGe_total a b) _
    cases hms : (stored.filter (fun x => x.ksi_id == ksi && x.status == "active")).mergeSort
        (fun a b => decide (b.version ≤ a.version)) with
    | nil =>
      rw [hms] at h
      cases h
    | cons r₀ t =>
      rw [hms] at h
      simp only [List.head?_cons, Option.some.injEq] at h
      subst h
      have hmem : r₀ ∈ stored.filter (fun x => x.ksi_id == ksi && x.status == "active") := by
        have : r₀ ∈ (stored.filter (fun x => x.ksi_id == ksi && x.status == "active")).mergeSort
            (fun a b => decide (b.version ≤ a.version)) := by
          rw [hms]; exact List.mem_cons_self _ _
        exact List.mem_mergeSort.mp this
      have hfil := List.mem_filter.mp hmem
      have hprop : r₀.ksi_id = ksi ∧ r₀.status = "active" := by
        have := hfil.2
        simp only [Bool.and_eq_true, beq_iff_eq] at this
        exact this
      refine ⟨hfil.1, hprop.1, hprop.2, ?_⟩
      intro r₁ hr₁ hk hs
      have hr₁mem : r₁ ∈ stored.filter (fun x => x.ksi_id == ksi && x.status == "active") :=
        List.mem_filter.mpr ⟨hr₁, by simp [hk, hs]⟩
      have hr₁sort : r₁ ∈ (stored.filter
          (fun x => x.ksi_id == ksi && x.status == "active")).mergeSort
          (fun a b => decide (b.version ≤ a.version)) := List.mem_mergeSort.mpr hr₁mem
      rw [hms] at hr₁sort
      rcases List.mem_cons.mp hr₁sort with heq | htail
      · subst heq; exact le_refl _
      · rw [hms] at hsorted
        have := (List.pairwise_cons.mp hsorted).1 r₁ htail
        simpa [decide_eq_true_eq] using this

theorem get_active_rule_none (stored : List Rule) (ksi : String)
    (h : get_active_rule stored ksi = none) :
    ∀ r₁ ∈ stored, r₁.ksi_id = ksi → r₁.status ≠ "active" := by
  intro r₁ hr₁ hk hs
  simp only [get_active_rule] at h
  by_cases hemp : (stored.filter (fun x => x.ksi_id == ksi && x.status == "active")).isEmpty
  · rw [List.isEmpty_iff] at hemp
    have : r₁ ∈ stored.filter (fun x => x.ksi_id == ksi && x.status == "active") :=
      List.mem_filter.mpr ⟨hr₁, by simp [hk, hs]⟩
    rw [hemp] at this
    cases this
  · rw [if_neg hemp] at h
    rw [Bool.not_eq_true] at hemp
    rw [List.isEmpty_eq_false_iff_exists_mem] at hemp
    obtain ⟨x, hx⟩ := hemp
    have : x ∈ (stored.filter (fun r => r.ksi_id == ksi && r.status == "active")).mergeSort
        (fun a b => decide (b.version ≤ a.version)) := List.mem_mergeSort.mpr hx
    cases hms : (stored.filter (fun r => r.ksi_id == ksi && r.status == "active")).mergeSort
        (fun a b => decide (b.version ≤ a.version)) with
    | nil => rw [hms] at this; cases this
    | cons r₀ t => rw [hms] at h; cases h

theorem execute_errorResult_of_no_rule (stored : List Rule) (ksi : String)
    (ovr : Option OverrideRecord) (session : Except String AwsSession)
    (h : get_active_rule stored ksi = none) :
    execute_ksi_validation stored ksi ovr session =
      .errorResult ksi ("No active validation rule found for " ++ ksi) := by
  simp only [execute_ksi_validation, h]

/-- C6: rule resolution over the stored versions of a check returns an
active version whose stored version is greatest (w.r.t. the ordering of
the stored version attribute, which Python's sort applies to the stored
version strings) among all active versions of that check; when no stored
version of the check is active it returns absent, and then the check
cannot run: every execution for that check ends with status ERROR. -/
theorem claim_C6 (stored : List Rule) (ksi : String) :
    (match get_active_rule stored ksi with
     | some r => r ∈ stored ∧ r.ksi_id = ksi ∧ r.status = "active" ∧
         ∀ r₁ ∈ stored, r₁.ksi_id = ksi → r₁.status = "active" → r₁.version ≤ r.version
     | none => (∀ r₁ ∈ stored, r₁.ksi_id = ksi → r₁.status ≠ "active")
         ∧ ∀ (ovr : Option OverrideRecord) (session : Except String AwsSession),
             (execute_ksi_validation stored ksi ovr session).statusOf = "ERROR") := by
  cases h : get_active_rule stored ksi with
  | some r => exact get_active_rule_some stored ksi r h
  | none =>
    refine ⟨get_active_rule_none stored ksi h, ?_⟩
    intro ovr session
    rw [execute_errorResult_of_no_rule stored ksi ovr session h]
    rfl

/-- C8: for every (service, action, raw response) triple whose pair is not
in the registered set, metric extraction returns the empty metric mapping —
it is a total function, so no error is raised and the step simply
contributes no measurable evidence. -/
theorem claim_C8 (service action : String) (result : AwsResult)
    (h : (service, action) ∉ registered_pairs) :
    extract_metrics service action result = [] := by
  simp only [registered_pairs, List.mem_cons, List.not_mem_nil, or_false, Prod.mk.injEq,
    not_or, not_and] at h
  obtain ⟨h1, h2, h3, h4, h5, h6, h7, h8, h9, h10, h11, h12⟩ := h
  simp only [extract_metrics]
  by_cases s1 : service = "cloudtrail"
  · subst s1
    rw [if_pos rfl, if_neg (h1 rfl), if_neg (h2 rfl)]
  · rw [if_neg s1]
    by_cases s2 : service = "logs" ∧ action = "describe_log_groups"
    · exact absurd s2.2 (h3 s2.1)
    · rw [if_neg s2]
      by_cases s3 : service = "kms"
      · subst s3
        rw [if_pos rfl, if_neg (h4 rfl), if_neg (h5 rfl)]
      · rw [if_neg s3]
        by_cases s4 : service = "sns" ∧ action = "list_topics"
        · exact absurd s4.2 (h6 s4.1)
        · rw [if_neg s4]
          by_cases s5 : service = "cloudwatch" ∧ action = "describe_alarms"
          · exact absurd s5.2 (h7 s5.1)
          · rw [if_neg s5]
            by_cases s6 : service = "s3" ∧ action = "list_buckets"
            · exact absurd s6.2 (h8 s6.1)
            · rw [if_neg s6]
              by_cases s7 : service = "rds" ∧ action = "describe_db_instances"
              · exact absurd s7.2 (h9 s7.1)
              · rw [if_neg s7]
                by_cases s8 : service = "acm" ∧ action = "list_certificates"
                · exact absurd s8.2 (h10 s8.1)
                · rw [if_neg s8]
                  by_cases s9 : service = "securityhub"
                  · subst s9
                    rw [if_pos rfl, if_neg (h11 rfl), if_neg (h12 rfl)]
                  · rw [if_neg s9]

/-- Witness for C8: the pair (ec2, describe_instances) is unregistered and
extraction on any response returns the empty mapping. -/
theorem claim_C8_witness :
    extract_metrics "ec2" "describe_instances" {} = [] :=
  claim_C8 "ec2" "describe_instances" {} (by decide)

theorem setKey_notmem_append {β : Type} (m : Dict β) (k : String) (v : β)
    (h : k ∉ m.map Prod.fst) : setKey m k v = m ++ [(k, v)] := by
  induction m with
  | nil => rfl
  | cons p rest ih =>
    obtain ⟨k₁, v₁⟩ := p
    simp only [List.map_cons, List.mem_cons] at h
    push_neg at h
    simp [setKey, Ne.symm h.1, ih h.2]

theorem lookup_eq_none_of_notmem {β : Type} (m : Dict β) (k : String)
    (h : k ∉ m.map Prod.fst) : lookup? m k = none := by
  induction m with
  | nil => rfl
  | cons p rest ih =>
    obtain ⟨k₁, v₁⟩ := p
    simp only [List.map_cons, List.mem_cons] at h
    push_neg at h
    simp [lookup?, Ne.symm h.1, ih h.2]

theorem run_steps_all_ok (sess : AwsSession) (params : Dict Val) (l : List Step)
    (okOf : Step → StepSuccess)
    (h : ∀ s ∈ l, execute_validation_step s sess params = .ok (okOf s)) :
    ∀ acc, run_steps sess params l acc =
      (l.foldl (fun a s => setKey a (stepKey s) (StepEntry.ok (okOf s))) acc, none) := by
  induction l with
  | nil => intro acc; rfl
  | cons s rest ih =>
    intro acc
    have hs := h s (by simp)
    simp only [run_steps, hs, List.foldl_cons]
    exact ih (fun x hx => h x (by simp [hx])) _

theorem run_steps_append (sess : AwsSession) (params : Dict Val) (l₁ l₂ : List Step)
    (okOf : Step → StepSuccess)
    (h : ∀ s ∈ l₁, execute_validation_step s sess params = .ok (okOf s)) :
    ∀ acc, run_steps sess params (l₁ ++ l₂) acc =
      run_steps sess params l₂
        (l₁.foldl (fun a s => setKey a (stepKey s) (StepEntry.ok (okOf s))) acc) := by
  induction l₁ with
  | nil => intro acc; rfl
  | cons s rest ih =>
    intro acc
    have hs := h s (by simp)
    simp only [List.cons_append, run_steps, hs, List.foldl_cons]
    exact ih (fun x hx => h x (by simp [hx])) _

theorem foldl_setKey_fresh (l : List Step) (f : Step → StepEntry) :
    ∀ acc : Dict StepEntry,
      (∀ s ∈ l, stepKey s ∉ acc.map Prod.fst) →
      (l.map stepKey).Nodup →
      l.foldl (fun a s => setKey a (stepKey s) (f s)) acc =
        acc ++ l.map (fun s => (stepKey s, f s)) := by
  induction l with
  | nil => intro acc _ _; simp
  | cons s rest ih =>
    intro acc hfresh hnd
    simp only [List.map_cons, List.nodup_cons] at hnd
    simp only [List.foldl_cons]
    rw [setKey_notmem_append _ _ _ (hfresh s (by simp))]
    rw [ih (acc ++ [(stepKey s, f s)]) ?_ hnd.2]
    · simp
    · intro x hx
      simp only [List.map_append, List.mem_append, List.map_cons, List.map_nil,
        List.mem_singleton]
      push_neg
      refine ⟨hfresh x (by simp [hx]), ?_⟩
      intro hc
      exact hnd.1 (hc ▸ List.mem_map_of_mem stepKey hx)

/-- Counterexample to C2 as stated: when the single step (k = 1) of the
rule has failure policy `fail_ksi` and its invocation fails, the returned
`step_results` is EMPTY — it does not contain an entry for the failing
step k, contrary to the claim that steps 1..k (the failing step included)
are present. -/
theorem claim_C2_counterexample :
    execute_ksi_validation [c2_rule] "KSI-X" none (.ok failing_session) =
      .failure "KSI-X" "Critical step 1 failed: AccessDenied" "1.0" []
    ∧ lookup? (execute_ksi_validation [c2_rule] "KSI-X" none
        (.ok failing_session)).stepResultsOf "step_1" = none := by
  constructor
  · with_unfolding_all rfl
  · with_unfolding_all rfl

/-- C2 (amended): if every step before position k succeeds and the step at
position k has failure policy `fail_ksi` and its invocation fails, the loop
aborts immediately: the result is the FAIL dict carrying the step-k error,
no score is computed, and `step_results` contains entries for exactly the
steps 1..k-1 — the failing step k itself is absent (its error is recorded
only in the result's error field), as are all later steps. -/
theorem claim_C2_amended (stored : List Rule) (ksi : String) (ovr : Option OverrideRecord)
    (sess : AwsSession) (rule : Rule) (pre : List Step) (failStep : Step)
    (rest : List Step) (okOf : Step → StepSuccess) (e : String) (params : Dict Val)
    (hparams : params = merge_parameters rule.configurable_parameters
      ((ovr.map (·.custom_parameters)).getD []))
    (hrule : get_active_rule stored ksi = some rule)
    (hsteps : rule.validation_steps = pre ++ failStep :: rest)
    (hpre : ∀ s ∈ pre, execute_validation_step s sess params = .ok (okOf s))
    (hfail : execute_validation_step failStep sess params = .error e)
    (hpolicy : failStep.failure_action = "fail_ksi")
    (hnd : (pre.map stepKey).Nodup)
    (hfresh : stepKey failStep ∉ pre.map stepKey) :
    execute_ksi_validation stored ksi ovr (.ok sess) =
      .failure ksi ("Critical step " ++ toString failStep.step_id ++ " failed: " ++ e)
        rule.version (pre.map (fun s => (stepKey s, StepEntry.ok (okOf s))))
    ∧ (execute_ksi_validation stored ksi ovr (.ok sess)).statusOf = "FAIL"
    ∧ (execute_ksi_validation stored ksi ovr (.ok sess)).scoreOf = none
    ∧ lookup? (execute_ksi_validation stored ksi ovr (.ok sess)).stepResultsOf
        (stepKey failStep) = none
    ∧ ∀ s ∈ rest, stepKey s ∉
        ((execute_ksi_validation stored ksi ovr (.ok sess)).stepResultsOf.map Prod.fst)
        ∨ stepKey s ∈ pre.map stepKey := by
  subst hparams
  have hmain : execute_ksi_validation stored ksi ovr (.ok sess) =
      .failure ksi ("Critical step " ++ toString failStep.step_id ++ " failed: " ++ e)
        rule.version (pre.map (fun s => (stepKey s, StepEntry.ok (okOf s)))) := by
    simp only [execute_ksi_validation, hrule]
    rw [hsteps]
    rw [run_steps_append _ _ _ _ _ hpre]
    rw [foldl_setKey_fresh _ _ [] (by simp) hnd]
    simp only [List.nil_append, run_steps, hfail]
    rw [if_pos hpolicy]
  have hkeys : (pre.map (fun s => (stepKey s, StepEntry.ok (okOf s)))).map Prod.fst =
      pre.map stepKey := by
    simp [List.map_map, Function.comp]
  refine ⟨hmain, by rw [hmain]; rfl, by rw [hmain]; rfl, ?_, ?_⟩
  · rw [hmain]
    exact lookup_eq_none_of_notmem _ _ (by rw [ExecResult.stepResultsOf, hkeys]; exact hfresh)
  · intro s hs
    by_cases hmem : stepKey s ∈ pre.map stepKey
    · exact Or.inr hmem
    · refine Or.inl ?_
      rw [hmain, ExecResult.stepResultsOf, hkeys]
      exact hmem

/-- Witness for the amended C2, at a two-step rule whose second step fails
with `fail_ksi`. -/
theorem claim_C2_amended_witness :
    (execute_ksi_validation [c2w_rule] "KSI-W" none (.ok c2w_session)).statusOf = "FAIL"
    ∧ (execute_ksi_validation [c2w_rule] "KSI-W" none (.ok c2w_session)).scoreOf = none :=
  have h := claim_C2_amended [c2w_rule] "KSI-W" none c2w_session c2w_rule
    [c2w_s1] c2w_s2 [] (fun _ => c2w_ok) "Denied"
    (merge_parameters c2w_rule.configurable_parameters
      ((Option.map (fun o => o.custom_parameters) (none : Option OverrideRecord)).getD []))
    rfl
    (by with_unfolding_all rfl)
    rfl
    (by
      intro s hs
      rw [List.mem_singleton] at hs
      subst hs
      with_unfolding_all rfl)
    (by with_unfolding_all rfl)
    rfl
    (by with_unfolding_all decide)
    (by with_unfolding_all decide)
  ⟨h.2.1, h.2.2.1⟩

/-- Counterexample to C3 as stated: a step referencing an unregistered
(service, operation) pair with declared policy `warn` is NOT treated as
`fail_check` — the run records the generic error under `step_1_error`,
continues to scoring, and here even finishes with status PASS; the error
is a generic string from the reflective lookup, not a distinct
unsupported-operation error. -/
theorem claim_C3_counterexample :
    execute_ksi_validation [c3_rule] "KSI-R" none (.ok reflective_session) =
      .success "KSI-R" "PASS" 0 [] []
        [("step_1_error",
          .errStr "AttributeError: 'foo' object has no attribute 'bar'")]
        "1.0" []
    ∧ (execute_ksi_validation [c3_rule] "KSI-R" none
        (.ok reflective_session)).statusOf ≠ "FAIL" := by
  constructor
  · with_unfolding_all rfl
  · intro hc
    have : ("PASS" : String) = "FAIL" := by
      have h : execute_ksi_validation [c3_rule] "KSI-R" none (.ok reflective_session) =
          .success "KSI-R" "PASS" 0 [] []
            [("step_1_error",
              .errStr "AttributeError: 'foo' object has no attribute 'bar'")]
            "1.0" [] := by with_unfolding_all rfl
      rw [h] at hc
      exact hc
    exact absurd this (by decide)

/-- C3 (amended): dispatch is reflective, so an invocation failure of any
kind — including a step referencing an unknown (service, operation) pair,
which fails with a generic attribute-lookup error rather than a distinct
unsupported-operation error — is handled by the step's DECLARED failure
policy, not forced to `fail_check`: with policy `warn` the error string is
recorded under `step_{id}_error` and the remaining steps run and are
scored normally. -/
theorem claim_C3_amended (stored : List Rule) (ksi : String) (ovr : Option OverrideRecord)
    (sess : AwsSession) (rule : Rule) (badStep : Step) (rest : List Step)
    (okOf : Step → StepSuccess) (e : String) (params : Dict Val)
    (sr : Dict StepEntry)
    (hparams : params = merge_parameters rule.configurable_parameters
      ((ovr.map (·.custom_parameters)).getD []))
    (hrule : get_active_rule stored ksi = some rule)
    (hsteps : rule.validation_steps = badStep :: rest)
    (hfail : execute_validation_step badStep sess params = .error e)
    (hpolicy : badStep.failure_action = "warn")
    (hrest : ∀ s ∈ rest, execute_validation_step s sess params = .ok (okOf s))
    (hnd : (rest.map stepKey).Nodup)
    (hfresh : ∀ s ∈ rest, stepKey s ≠ stepErrKey badStep)
    (hsr : sr = (stepErrKey badStep, StepEntry.errStr e) ::
      rest.map (fun s => (stepKey s, StepEntry.ok (okOf s)))) :
    execute_ksi_validation stored ksi ovr (.ok sess) =
      .success ksi (calculate_ksi_score sr rule.scoring_rules params).status
        (calculate_ksi_score sr rule.scoring_rules params).score
        (calculate_ksi_score sr rule.scoring_rules params).findings
        (calculate_ksi_score sr rule.scoring_rules params).scores
        sr rule.version params
    ∧ lookup? (execute_ksi_validation stored ksi ovr (.ok sess)).stepResultsOf
        (stepErrKey badStep) = some (StepEntry.errStr e) := by
  subst hparams
  have hwarnne : ¬ badStep.failure_action = "fail_ksi" := by
    rw [hpolicy]; decide
  have hmain : execute_ksi_validation stored ksi ovr (.ok sess) =
      .success ksi (calculate_ksi_score sr rule.scoring_rules
          (merge_parameters rule.configurable_parameters
            ((ovr.map (·.custom_parameters)).getD []))).status
        (calculate_ksi_score sr rule.scoring_rules
          (merge_parameters rule.configurable_parameters
            ((ovr.map (·.custom_parameters)).getD []))).score
        (calculate_ksi_score sr rule.scoring_rules
          (merge_parameters rule.configurable_parameters
            ((ovr.map (·.custom_parameters)).getD []))).findings
        (calculate_ksi_score sr rule.scoring_rules
          (merge_parameters rule.configurable_parameters
            ((ovr.map (·.custom_parameters)).getD []))).scores
        sr rule.version
        (merge_parameters rule.configurable_parameters
          ((ovr.map (·.custom_parameters)).getD [])) := by
    simp only [execute_ksi_validation, hrule]
    rw [hsteps]
    simp only [run_steps, hfail]
    rw [if_neg hwarnne, if_pos hpolicy]
    rw [run_steps_all_ok _ _ _ _ hrest]
    rw [foldl_setKey_fresh _ _ (setKey [] (stepErrKey badStep) (StepEntry.errStr e))
      (by
        intro s hs
        simp only [setKey, List.map_cons, List.map_nil, List.mem_singleton]
        exact hfresh s hs)
      hnd]
    rw [hsr]
    simp [setKey]
  refine ⟨hmain, ?_⟩
  rw [hmain]
  rw [ExecResult.stepResultsOf, hsr]
  simp [lookup?]

/-- Witness for the amended C3, at the single-`warn`-step rule under
reflective dispatch. -/
theorem claim_C3_amended_witness :
    execute_ksi_validation [c3_rule] "KSI-R" none (.ok reflective_session) =
      .success "KSI-R"
        (calculate_ksi_score
          [("step_1_error",
            StepEntry.errStr "AttributeError: 'foo' object has no attribute 'bar'")]
          c3_rule.scoring_rules []).status
        (calculate_ksi_score
          [("step_1_error",
            StepEntry.errStr "AttributeError: 'foo' object has no attribute 'bar'")]
          c3_rule.scoring_rules []).score
        (calculate_ksi_score
          [("step_1_error",
            StepEntry.errStr "AttributeError: 'foo' object has no attribute 'bar'")]
          c3_rule.scoring_rules []).findings
        (calculate_ksi_score
          [("step_1_error",
            StepEntry.errStr "AttributeError: 'foo' object has no attribute 'bar'")]
          c3_rule.scoring_rules []).scores
        [("step_1_error",
          StepEntry.errStr "AttributeError: 'foo' object has no attribute 'bar'")]
        "1.0" [] :=
  (claim_C3_amended [c3_rule] "KSI-R" none reflective_session c3_rule
    { step_id := 1, service := "foo", action := "bar", failure_action := "warn" }
    [] (fun _ => { success := true, metrics := [], raw_result_summary := "" })
    "AttributeError: 'foo' object has no attribute 'bar'"
    [] _
    (by with_unfolding_all rfl)
    (by with_unfolding_all rfl)
    rfl
    (by with_unfolding_all rfl)
    rfl
    (by intro s hs; cases hs)
    (by decide)
    (by intro s hs; cases hs)
    rfl).1

/-- Counterexample to C4 as stated: with no active rule stored for
`KSI-Z`, the engine does NOT surface the precondition failure to its
caller — it catches it and RETURNS an ExecutionResult dict with status
ERROR (and rule_version `unknown`), so the caller does receive an
ExecutionResult for such an invocation. -/
theorem claim_C4_counterexample :
    execute_ksi_validation [] "KSI-Z" none (.ok ok_session) =
      .errorResult "KSI-Z" "No active validation rule found for KSI-Z"
    ∧ (execute_ksi_validation [] "KSI-Z" none (.ok ok_session)).statusOf = "ERROR"
    ∧ (execute_ksi_validation [] "KSI-Z" none
        (.ok ok_session)).ruleVersionOf = "unknown" := by
  refine ⟨?_, ?_, ?_⟩ <;> with_unfolding_all rfl

/-- C4 (amended): when no active rule version exists for the check
identifier, the raised precondition failure is caught by the engine's own
catch-all and the caller of the per-check entry point receives a returned
ExecutionResult with status ERROR, error message naming the check, no
score, and rule_version `unknown` — nothing propagates to the caller as a
raised failure. -/
theorem claim_C4_amended (stored : List Rule) (ksi : String)
    (ovr : Option OverrideRecord) (session : Except String AwsSession)
    (h : get_active_rule stored ksi = none) :
    execute_ksi_validation stored ksi ovr session =
      .errorResult ksi ("No active validation rule found for " ++ ksi)
    ∧ (execute_ksi_validation stored ksi ovr session).statusOf = "ERROR"
    ∧ (execute_ksi_validation stored ksi ovr session).scoreOf = none
    ∧ (execute_ksi_validation stored ksi ovr session).ruleVersionOf = "unknown" := by
  have hmain := execute_errorResult_of_no_rule stored ksi ovr session h
  exact ⟨hmain, by rw [hmain]; rfl, by rw [hmain]; rfl, by rw [hmain]; rfl⟩

/-- Witness for the amended C4, at an empty rule store. -/
theorem claim_C4_amended_witness :
    (execute_ksi_validation [] "KSI-Z" none (.ok ok_session)).statusOf = "ERROR"
    ∧ (execute_ksi_validation [] "KSI-Z" none (.ok ok_session)).scoreOf = none :=
  have h := claim_C4_amended [] "KSI-Z" none (.ok ok_session) rfl
  ⟨h.2.1, h.2.2.1⟩

/-- C9: the engine is deterministic — for a fixed rule store, check id,
tenant override and fixed raw step responses (two session values whose
response maps agree), two executions produce identical results, in
particular the same status, score and findings. -/
theorem claim_C9 (stored : List Rule) (ksi : String) (ovr : Option OverrideRecord)
    (s₁ s₂ : AwsSession) (h : s₁.call = s₂.call) :
    execute_ksi_validation stored ksi ovr (.ok s₁) =
      execute_ksi_validation stored ksi ovr (.ok s₂)
    ∧ (execute_ksi_validation stored ksi ovr (.ok s₁)).statusOf =
        (execute_ksi_validation stored ksi ovr (.ok s₂)).statusOf
    ∧ (execute_ksi_validation stored ksi ovr (.ok s₁)).scoreOf =
        (execute_ksi_validation stored ksi ovr (.ok s₂)).scoreOf
    ∧ (execute_ksi_validation stored ksi ovr (.ok s₁)).findingsOf =
        (execute_ksi_validation stored ksi ovr (.ok s₂)).findingsOf := by
  obtain ⟨c₁⟩ := s₁
  obtain ⟨c₂⟩ := s₂
  simp only at h
  subst h
  exact ⟨rfl, rfl, rfl, rfl⟩

/-- Witness for C9, at two (equal) concrete sessions. -/
theorem claim_C9_witness :
    execute_ksi_validation [c2_rule] "KSI-X" none (.ok failing_session) =
      execute_ksi_validation [c2_rule] "KSI-X" none (.ok failing_session) :=
  (claim_C9 [c2_rule] "KSI-X" none failing_session failing_session rfl).1

end Riskdash
